import Mathlib

/-!
# Verification of the email analyzer core (`email_analyzer.py`)

Shallow embedding of the core logic of `email_analyzer.py`:

* `fetch_recent_emails` — the bounded, paginated fetch-and-filter loop;
* `analyze_email_openai` — the retrying LLM-analysis call;
* `compute_priority` — the deterministic priority scorer;
* the orchestrator's final stable descending sort (`sorted(..., key=priority, reverse=True)`).

Modelling conventions:

* Timestamps are integers.  The source converts the adapter's millisecond
  epoch value to a `datetime` via `datetime.fromtimestamp(ms / 1000)` and
  compares `datetime` values; that conversion is strictly monotone, so the
  window test is order-isomorphic to comparing the raw integer values, which
  is what the embedding does.
* Network calls that can raise are modelled with `Except String`, the error
  payload standing for `str(e)`.
* The OpenAI chat-completion dependency is modelled as a function of the
  message list and the attempt number, so that a service whose behaviour
  varies between retries is expressible.
* UI side effects (progress bars, status text, `st.warning`, sleeps) have no
  bearing on the returned values and are not modelled.
-/

namespace EmailAnalyzer

/-! ## String helpers: Python `str.lower` and the `in` substring operator -/

/-- Python's `str.lower()` restricted to ASCII, which is all the source's
keyword and sender literals use.  Maps each character through `Char.toLower`. -/
def pyLower (s : String) : String :=
  String.mk (s.data.map Char.toLower)

/-- Auxiliary for the substring test: does `needle` occur at the head of
`hay`? -/
def startsList : List Char → List Char → Bool
  | [], _ => true
  | _ :: _, [] => false
  | a :: as, b :: bs => a = b && startsList as bs

/-- Does `needle` occur contiguously anywhere in `hay`? -/
def subList (needle : List Char) : List Char → Bool
  | [] => startsList needle []
  | c :: t => startsList needle (c :: t) || subList needle t

/-- Python's `needle in hay` substring operator on strings. -/
def pyIn (needle hay : String) : Bool :=
  subList needle.data hay.data

/-! ## Data model -/

/-- One message as assembled by `fetch_recent_emails` (the dict literal at
lines 165–171 of the source).  `received_at` holds the source-assigned
timestamp (see the timestamp convention in the file header). -/
structure Email where
  id : String
  subject : String
  «from» : String
  snippet : String
  received_at : Int
deriving Repr, DecidableEq

/-- The message detail returned by the adapter's `get`-by-id call:
`internalDate` (the source applies `int(... .get("internalDate", 0))`, so a
missing field is modelled as the adapter returning `0`), the snippet, and the
payload headers as name/value pairs. -/
structure MsgData where
  internalDate : Int
  snippet : String
  headers : List (String × String)
deriving Repr, DecidableEq

/-- One page returned by the adapter's `list` call: message identifiers and
the optional continuation token (`nextPageToken`; a Python-falsy token is
modelled as `none`). -/
structure Page where
  messages : List String
  nextPageToken : Option String
deriving Repr, DecidableEq

/-- The mail adapter (the authenticated Gmail `service`): a paginated
`list` of message identifiers and a `get` of one message's detail.  Either
call may raise, modelled by `Except`; the error payload stands for
`str(e)`. -/
structure GmailService where
  listPage : Option String → Except String Page
  getMessage : String → Except String MsgData

/-- Header lookup: `next((h["value"] for h in headers if h["name"] == name), dflt)`. -/
def headerValue (headers : List (String × String)) (name dflt : String) : String :=
  ((headers.find? (fun h => h.1 == name)).map (fun h => h.2)).getD dflt

/-- Build the `Email` dict appended by `fetch_recent_emails` from one
message's detail (source lines 160–171). -/
def mkEmail (msgId : String) (d : MsgData) : Email :=
  { id := msgId
    subject := headerValue d.headers "Subject" "No Subject"
    «from» := headerValue d.headers "From" "Unknown Sender"
    snippet := d.snippet
    received_at := d.internalDate }

/-! ## Windowed fetcher (`fetch_recent_emails`, source lines 122–188) -/

/-- The inner `for msg in messages` loop (source lines 148–177): for each
identifier, fetch the detail; a failure is caught and the identifier skipped;
a message whose timestamp lies in the inclusive window is appended; once
`desired` matches are collected the loop breaks. -/
def scanPage (svc : GmailService) (startT endT : Int) (desired : Nat)
    (acc : List Email) : List String → List Email
  | [] => acc
  | msgId :: rest =>
    match svc.getMessage msgId with
    | .error _ => scanPage svc startT endT desired acc rest
    | .ok d =>
      if startT ≤ d.internalDate ∧ d.internalDate ≤ endT then
        let acc' := acc ++ [mkEmail msgId d]
        if desired ≤ acc'.length then acc'
        else scanPage svc startT endT desired acc' rest
      else scanPage svc startT endT desired acc rest

/-- The `while fetched_messages < max_fetch and len(matching_emails) <
desired_count` loop of `fetch_recent_emails`, returning the matched emails
together with the final value of `fetched_messages` (the running count of
identifiers obtained from page-listing calls).  A failure of the page-listing
call propagates to the outer `except`, which returns the empty list
(source lines 186–188). -/
def fetchLoop (svc : GmailService) (startT endT : Int) (desired maxF : Nat)
    (token : Option String) (fetched : Nat) (acc : List Email) :
    List Email × Nat :=
  if hguard : fetched < maxF ∧ acc.length < desired then
    match svc.listPage token with
    | .error _ => ([], fetched)
    | .ok page =>
      if hemp : page.messages.isEmpty then (acc, fetched + page.messages.length)
      else
        let acc' := scanPage svc startT endT desired acc page.messages
        match page.nextPageToken with
        | none => (acc', fetched + page.messages.length)
        | some t =>
            fetchLoop svc startT endT desired maxF (some t)
              (fetched + page.messages.length) acc'
  else (acc, fetched)
termination_by maxF - fetched
decreasing_by
  have hlen : 0 < page.messages.length := by
    cases hm : page.messages with
    | nil => rw [hm] at hemp; simp at hemp
    | cons a l => simp [hm]
  omega

/-- `fetch_recent_emails(service, start, end, desired_count, max_fetch)`:
the list of matched messages. -/
def fetch_recent_emails (svc : GmailService) (startT endT : Int)
    (desired maxF : Nat) : List Email :=
  (fetchLoop svc startT endT desired maxF none 0 []).1

/-- The final value of the `fetched_messages` counter of the same run. -/
def fetchScannedCount (svc : GmailService) (startT endT : Int)
    (desired maxF : Nat) : Nat :=
  (fetchLoop svc startT endT desired maxF none 0 []).2

/-- The details of one page's identifiers that the adapter can deliver,
in page order (reference sequence for order statements). -/
def pageDetails (svc : GmailService) (ids : List String) : List Email :=
  ids.filterMap (fun msgId =>
    match svc.getMessage msgId with
    | .error _ => none
    | .ok d => some (mkEmail msgId d))

/-- Reference sequence: every successfully fetched message detail, in source
page order, that a run of the fetch loop with scan budget `maxF` can visit
(same pagination and budget structure as `fetchLoop`, with no window filter
and no early stop at `desired`). -/
def scanLoop (svc : GmailService) (maxF : Nat) (token : Option String)
    (fetched : Nat) : List Email :=
  if hguard : fetched < maxF then
    match svc.listPage token with
    | .error _ => []
    | .ok page =>
      if hemp : page.messages.isEmpty then []
      else
        match page.nextPageToken with
        | none => pageDetails svc page.messages
        | some t =>
            pageDetails svc page.messages ++
              scanLoop svc maxF (some t) (fetched + page.messages.length)
  else []
termination_by maxF - fetched
decreasing_by
  have hlen : 0 < page.messages.length := by
    cases hm : page.messages with
    | nil => rw [hm] at hemp; simp at hemp
    | cons a l => simp [hm]
  omega

/-- All message details a budget-`maxF` run can visit, in source page order. -/
def scannedEmails (svc : GmailService) (maxF : Nat) : List Email :=
  scanLoop svc maxF none 0

/-! ## Content extractor (`analyze_email_openai`, source lines 193–232) -/

/-- The system message of the chat-completion request. -/
def systemMsg : String :=
  "You are an expert in extracting structured information from client emails."

/-- The instructional prompt built around the input text (source lines
201–205). -/
def promptFor (email_text : String) : String :=
  "Extract all relevant details for a service request from the email below:\n\n"
    ++ email_text
    ++ "\n\nReturn the extracted information in a clear, structured format."

/-- The chat-completion dependency: given the request's messages
(role/content pairs) and the attempt number, return the completion text or
raise.  The attempt index lets a model of the service behave differently
across retries. -/
def ChatCreate : Type := List (String × String) → Nat → Except String String

/-- The `for attempt in range(max_retries)` loop (source lines 210–232),
over the list of remaining attempt indices.  Returns the value
`analyze_email_openai` would return (`none` models Python's implicit `return
None` were the range empty, which cannot happen for `range 3`) paired with
the number of calls made to the generation dependency.  A successful call
returns the stripped completion; a failing call on any attempt before the
last is retried (the sleep is a pure delay, not modelled); a failing last
attempt returns the error placeholder built from `str(e)`. -/
def retryLoop (call : Nat → Except String String) (max_retries : Nat) :
    List Nat → Option String × Nat
  | [] => (none, 0)
  | attempt :: rest =>
    match call attempt with
    | .ok response => (some response.trim, 1)
    | .error e =>
      if attempt < max_retries - 1 then
        let p := retryLoop call max_retries rest
        (p.1, p.2 + 1)
      else (some ("Error analyzing email: " ++ e), 1)

/-- `analyze_email_openai(email_text)`: the analysis text paired with the
number of calls made to the generation dependency.  `apiKey` is the ambient
`openai.api_key` (Python-falsy ⇔ the empty string); when it is missing the
function returns the fixed placeholder without calling the dependency. -/
def analyze_email_openai (apiKey : String) (create : ChatCreate)
    (email_text : String) : Option String × Nat :=
  if apiKey = "" then
    (some "API key missing - unable to analyze email content.", 0)
  else
    retryLoop (create [("system", systemMsg), ("user", promptFor email_text)])
      3 (List.range 3)

/-! ## Priority scorer (`compute_priority`, source lines 234–253) -/

/-- The urgency keyword list (source line 236). -/
def urgency_keywords : List String :=
  ["urgent", "asap", "immediately", "critical", "emergency", "deadline", "rush"]

/-- `sum(1 for word in urgency_keywords if word in text.lower())`. -/
def urgencyCount (text : String) : Nat :=
  (urgency_keywords.filter (fun word => pyIn word (pyLower text))).length

/-- The sender bonus of `compute_priority` (source lines 240–247): 100 when
the lowercased `from` field contains `"pwc"`, else 50 when it contains a
priority domain, else 0. -/
def senderBonus (from_ : String) : Nat :=
  let from_field := pyLower from_
  if pyIn "pwc" from_field then 100
  else if ["@acme.com", "@important-client.com"].any
      (fun domain => pyIn domain from_field) then 50
  else 0

/-- `compute_priority(email, extracted_info)` (source lines 234–253). -/
def compute_priority (email : Email) (extracted_info : String) : Nat :=
  let urgency_score := urgencyCount extracted_info
  let bonus := senderBonus email.«from»
  let subject_urgency := urgencyCount email.subject
  bonus + urgency_score * 2 + subject_urgency * 3

/-! ## Orchestrator's sort (source line 348) -/

/-- A scored message: the fetched email together with its analysis text and
computed priority (the dict after `email.update({...})` at lines 341–344). -/
structure ScoredEmail where
  email : Email
  analysis : String
  priority : Nat
deriving Repr, DecidableEq

/-- Insertion step of the stable descending sort: `x` (earlier in the input)
is placed before the first element whose priority is not larger. -/
def insertDesc (x : ScoredEmail) : List ScoredEmail → List ScoredEmail
  | [] => [x]
  | y :: ys => if y.priority ≤ x.priority then x :: y :: ys else y :: insertDesc x ys

/-- `sorted(processed_emails, key=lambda x: x["priority"], reverse=True)`
(source line 348).  Python's `sorted` is documented to be stable, and a
stable descending key sort is exactly insertion sort with the
place-before-strictly-smaller rule of `insertDesc`. -/
def sortByPriorityDesc : List ScoredEmail → List ScoredEmail
  | [] => []
  | x :: xs => insertDesc x (sortByPriorityDesc xs)

/-- The orchestrator's per-message pass (source lines 333–345): analyze each
fetched email's snippet, score it, and collect the scored messages in fetch
order.  `analysisOf` is the result of `analyze_email_openai` on the snippet,
abstracted as a function of the email. -/
def processEmails (analysisOf : Email → String) (emails : List Email) :
    List ScoredEmail :=
  emails.map (fun e =>
    { email := e, analysis := analysisOf e
      priority := compute_priority e (analysisOf e) })

/-- Fetch-order processing followed by the final sort (source lines 333–348). -/
def orchestratorOrder (analysisOf : Email → String) (emails : List Email) :
    List ScoredEmail :=
  sortByPriorityDesc (processEmails analysisOf emails)

/-! ## Spec-side scorer (for the refinement statement of the scoring formula)

These definitions follow the wording of spec §4.3 and are compared with the
source-derived `compute_priority` above. -/

/-- Spec §4.3 step 1: the keyword set K (case-insensitive substring match). -/
def spec_keywords : List String :=
  ["urgent", "asap", "immediately", "critical", "emergency", "deadline", "rush"]

/-- Spec §4.3 steps 2–3: the count of K-members appearing in a text,
case-insensitively, by substring. -/
def spec_keywordCount (text : String) : Nat :=
  (spec_keywords.filter (fun w => pyIn w (pyLower text))).length

/-- Spec §4.3 step 4: the configured priority-domain set. -/
def spec_priority_domains : List String :=
  ["@acme.com", "@important-client.com"]

/-- Spec §4.3 step 4: 100 if the sender contains the VIP marker, else 50 if
the sender matches a priority domain, else 0. -/
def spec_senderBonus (sender : String) : Nat :=
  if pyIn "pwc" (pyLower sender) then 100
  else if spec_priority_domains.any (fun d => pyIn d (pyLower sender)) then 50
  else 0

/-- Spec §4.3 step 5: `total = senderBonus + urgencyScore*2 + subjectUrgency*3`,
written with the coefficients in front as in the claim. -/
def spec_score (sender subject analysisText : String) : Nat :=
  spec_senderBonus sender + 2 * spec_keywordCount analysisText +
    3 * spec_keywordCount subject

/-! ## Concrete services for counterexamples and witnesses -/

/-- A service with a single two-identifier page and failing detail calls:
used to exhibit the scan-budget overshoot. -/
def svcTwoIds : GmailService :=
  { listPage := fun _ => .ok { messages := ["a", "b"], nextPageToken := none }
    getMessage := fun _ => .error "boom" }

/-- A service whose first page contains one in-window message and whose
second page-listing call raises. -/
def svcListFail : GmailService :=
  { listPage := fun token =>
      match token with
      | none => .ok { messages := ["m1"], nextPageToken := some "t" }
      | some _ => .error "HttpError 503"
    getMessage := fun _ =>
      .ok { internalDate := 5, snippet := "snip"
            headers := [("Subject", "Hi"), ("From", "a@b.com")] } }

/-- The message `svcListFail` matches on its first page. -/
def emailM1 : Email :=
  { id := "m1", subject := "Hi", «from» := "a@b.com", snippet := "snip"
    received_at := 5 }

/-- Two messages agreeing on sender and subject but differing in every other
field (used to exercise the purity of the scorer). -/
def emailCopyA : Email :=
  { id := "1", subject := "Weekly sync", «from» := "boss@pwc.com"
    snippet := "first copy", received_at := 0 }

/-- See `emailCopyA`. -/
def emailCopyB : Email :=
  { id := "2", subject := "Weekly sync", «from» := "boss@pwc.com"
    snippet := "other copy", received_at := 999 }

/-! ## Step lemmas for the fetch loop -/

theorem scanPage_nil (svc : GmailService) (startT endT : Int) (desired : Nat)
    (acc : List Email) : scanPage svc startT endT desired acc [] = acc := rfl

theorem scanPage_cons_error {svc : GmailService} (startT endT : Int)
    (desired : Nat) (acc : List Email) {m : String} {err : String}
    (rest : List String) (hg : svc.getMessage m = .error err) :
    scanPage svc startT endT desired acc (m :: rest) =
      scanPage svc startT endT desired acc rest := by
  simp [scanPage, hg]

theorem scanPage_cons_ok_stop {svc : GmailService} {startT endT : Int}
    {desired : Nat} {acc : List Email} {m : String} {d : MsgData}
    (rest : List String) (hg : svc.getMessage m = .ok d)
    (hw : startT ≤ d.internalDate ∧ d.internalDate ≤ endT)
    (hd : desired ≤ (acc ++ [mkEmail m d]).length) :
    scanPage svc startT endT desired acc (m :: rest) = acc ++ [mkEmail m d] := by
  simp only [scanPage, hg, if_pos hw, if_pos hd]

theorem scanPage_cons_ok_cont {svc : GmailService} {startT endT : Int}
    {desired : Nat} {acc : List Email} {m : String} {d : MsgData}
    (rest : List String) (hg : svc.getMessage m = .ok d)
    (hw : startT ≤ d.internalDate ∧ d.internalDate ≤ endT)
    (hd : ¬ desired ≤ (acc ++ [mkEmail m d]).length) :
    scanPage svc startT endT desired acc (m :: rest) =
      scanPage svc startT endT desired (acc ++ [mkEmail m d]) rest := by
  simp only [scanPage, hg, if_pos hw, if_neg hd]

theorem scanPage_cons_ok_out {svc : GmailService} {startT endT : Int}
    {desired : Nat} {acc : List Email} {m : String} {d : MsgData}
    (rest : List String) (hg : svc.getMessage m = .ok d)
    (hw : ¬ (startT ≤ d.internalDate ∧ d.internalDate ≤ endT)) :
    scanPage svc startT endT desired acc (m :: rest) =
      scanPage svc startT endT desired acc rest := by
  simp only [scanPage, hg, if_neg hw]

theorem pageDetails_nil (svc : GmailService) : pageDetails svc [] = [] := rfl

theorem pageDetails_cons_error {svc : GmailService} {m err : String}
    (rest : List String) (hg : svc.getMessage m = .error err) :
    pageDetails svc (m :: rest) = pageDetails svc rest := by
  simp [pageDetails, hg]

theorem pageDetails_cons_ok {svc : GmailService} {m : String} {d : MsgData}
    (rest : List String) (hg : svc.getMessage m = .ok d) :
    pageDetails svc (m :: rest) = mkEmail m d :: pageDetails svc rest := by
  simp [pageDetails, hg]

theorem fetchLoop_stop {svc : GmailService} {startT endT : Int}
    {desired maxF : Nat} {token : Option String} {fetched : Nat}
    {acc : List Email} (h : ¬ (fetched < maxF ∧ acc.length < desired)) :
    fetchLoop svc startT endT desired maxF token fetched acc = (acc, fetched) := by
  rw [fetchLoop]; simp [h]

theorem fetchLoop_error {svc : GmailService} {startT endT : Int}
    {desired maxF : Nat} {token : Option String} {fetched : Nat}
    {acc : List Email} {msg : String}
    (h : fetched < maxF ∧ acc.length < desired)
    (hl : svc.listPage token = .error msg) :
    fetchLoop svc startT endT desired maxF token fetched acc = ([], fetched) := by
  rw [fetchLoop]; simp [h, hl]

theorem fetchLoop_empty {svc : GmailService} {startT endT : Int}
    {desired maxF : Nat} {token : Option String} {fetched : Nat}
    {acc : List Email} {page : Page}
    (h : fetched < maxF ∧ acc.length < desired)
    (hl : svc.listPage token = .ok page) (he : page.messages.isEmpty) :
    fetchLoop svc startT endT desired maxF token fetched acc =
      (acc, fetched + page.messages.length) := by
  rw [fetchLoop]; simp [h, hl, he]

theorem fetchLoop_page_none {svc : GmailService} {startT endT : Int}
    {desired maxF : Nat} {token : Option String} {fetched : Nat}
    {acc : List Email} {page : Page}
    (h : fetched < maxF ∧ acc.length < desired)
    (hl : svc.listPage token = .ok page) (he : ¬ page.messages.isEmpty)
    (hn : page.nextPageToken = none) :
    fetchLoop svc startT endT desired maxF token fetched acc =
      (scanPage svc startT endT desired acc page.messages,
        fetched + page.messages.length) := by
  rw [fetchLoop]; simp [h, hl, he, hn]

theorem fetchLoop_page_some {svc : GmailService} {startT endT : Int}
    {desired maxF : Nat} {token : Option String} {fetched : Nat}
    {acc : List Email} {page : Page} {t : String}
    (h : fetched < maxF ∧ acc.length < desired)
    (hl : svc.listPage token = .ok page) (he : ¬ page.messages.isEmpty)
    (hn : page.nextPageToken = some t) :
    fetchLoop svc startT endT desired maxF token fetched acc =
      fetchLoop svc startT endT desired maxF (some t)
        (fetched + page.messages.length)
        (scanPage svc startT endT desired acc page.messages) := by
  rw [fetchLoop]; simp [h, hl, he, hn]

theorem scanLoop_stop {svc : GmailService} {maxF : Nat}
    {token : Option String} {fetched : Nat} (h : ¬ fetched < maxF) :
    scanLoop svc maxF token fetched = [] := by
  rw [scanLoop]; simp [h]

theorem scanLoop_error {svc : GmailService} {maxF : Nat}
    {token : Option String} {fetched : Nat} {msg : String}
    (h : fetched < maxF) (hl : svc.listPage token = .error msg) :
    scanLoop svc maxF token fetched = [] := by
  rw [scanLoop]; simp [h, hl]

theorem scanLoop_empty {svc : GmailService} {maxF : Nat}
    {token : Option String} {fetched : Nat} {page : Page}
    (h : fetched < maxF) (hl : svc.listPage token = .ok page)
    (he : page.messages.isEmpty) :
    scanLoop svc maxF token fetched = [] := by
  rw [scanLoop]; simp [h, hl, he]

theorem scanLoop_page_none {svc : GmailService} {maxF : Nat}
    {token : Option String} {fetched : Nat} {page : Page}
    (h : fetched < maxF) (hl : svc.listPage token = .ok page)
    (he : ¬ page.messages.isEmpty) (hn : page.nextPageToken = none) :
    scanLoop svc maxF token fetched = pageDetails svc page.messages := by
  rw [scanLoop]; simp [h, hl, he, hn]

theorem scanLoop_page_some {svc : GmailService} {maxF : Nat}
    {token : Option String} {fetched : Nat} {page : Page} {t : String}
    (h : fetched < maxF) (hl : svc.listPage token = .ok page)
    (he : ¬ page.messages.isEmpty) (hn : page.nextPageToken = some t) :
    scanLoop svc maxF token fetched =
      pageDetails svc page.messages ++
        scanLoop svc maxF (some t) (fetched + page.messages.length) := by
  rw [scanLoop]; simp [h, hl, he, hn]

/-! ## Invariants of the fetch loop -/

/-- The inner page scan only ever appends to the accumulator, and what it
appends is an order-preserving selection of the page's details. -/
theorem scanPage_eq_append (svc : GmailService) (startT endT : Int)
    (desired : Nat) :
    ∀ (ids : List String) (acc : List Email),
      ∃ t, scanPage svc startT endT desired acc ids = acc ++ t ∧
        t.Sublist (pageDetails svc ids) := by
  intro ids
  induction ids with
  | nil =>
    intro acc
    exact ⟨[], by simp [scanPage_nil, pageDetails_nil]⟩
  | cons m rest ih =>
    intro acc
    cases hg : svc.getMessage m with
    | error e =>
      obtain ⟨t, ht, hs⟩ := ih acc
      exact ⟨t, by rw [scanPage_cons_error _ _ _ _ _ hg]; exact ht,
        by rw [pageDetails_cons_error _ hg]; exact hs⟩
    | ok d =>
      by_cases hw : startT ≤ d.internalDate ∧ d.internalDate ≤ endT
      · by_cases hd : desired ≤ (acc ++ [mkEmail m d]).length
        · refine ⟨[mkEmail m d], ?_, ?_⟩
          · rw [scanPage_cons_ok_stop rest hg hw hd]
          · rw [pageDetails_cons_ok rest hg]
            exact List.Sublist.cons₂ _ (List.nil_sublist _)
        · obtain ⟨t, ht, hs⟩ := ih (acc ++ [mkEmail m d])
          refine ⟨mkEmail m d :: t, ?_, ?_⟩
          · rw [scanPage_cons_ok_cont rest hg hw hd, ht, List.append_assoc]
            rfl
          · rw [pageDetails_cons_ok rest hg]
            exact List.Sublist.cons₂ _ hs
      · obtain ⟨t, ht, hs⟩ := ih acc
        exact ⟨t, by rw [scanPage_cons_ok_out rest hg hw]; exact ht,
          by rw [pageDetails_cons_ok rest hg]; exact List.Sublist.cons _ hs⟩

/-- The inner page scan never grows the accumulator past `desired`. -/
theorem scanPage_length (svc : GmailService) (startT endT : Int)
    (desired : Nat) :
    ∀ (ids : List String) (acc : List Email), acc.length < desired →
      (scanPage svc startT endT desired acc ids).length ≤ desired := by
  intro ids
  induction ids with
  | nil => intro acc h; rw [scanPage_nil]; omega
  | cons m rest ih =>
    intro acc h
    cases hg : svc.getMessage m with
    | error e => rw [scanPage_cons_error _ _ _ _ _ hg]; exact ih acc h
    | ok d =>
      by_cases hw : startT ≤ d.internalDate ∧ d.internalDate ≤ endT
      · by_cases hd : desired ≤ (acc ++ [mkEmail m d]).length
        · rw [scanPage_cons_ok_stop rest hg hw hd]
          simp only [List.length_append, List.length_cons, List.length_nil]
          omega
        · rw [scanPage_cons_ok_cont rest hg hw hd]
          refine ih _ ?_
          simp only [List.length_append, List.length_cons, List.length_nil] at hd ⊢
          omega
      · rw [scanPage_cons_ok_out rest hg hw]; exact ih acc h

/-- Every message appended by the page scan has its timestamp inside the
inclusive window. -/
theorem scanPage_window (svc : GmailService) (startT endT : Int)
    (desired : Nat) :
    ∀ (ids : List String) (acc : List Email),
      (∀ x ∈ acc, startT ≤ x.received_at ∧ x.received_at ≤ endT) →
      ∀ x ∈ scanPage svc startT endT desired acc ids,
        startT ≤ x.received_at ∧ x.received_at ≤ endT := by
  intro ids
  induction ids with
  | nil => intro acc h; rw [scanPage_nil]; exact h
  | cons m rest ih =>
    intro acc h
    cases hg : svc.getMessage m with
    | error e => rw [scanPage_cons_error _ _ _ _ _ hg]; exact ih acc h
    | ok d =>
      have hacc' : ∀ x ∈ acc ++ [mkEmail m d],
          startT ≤ d.internalDate ∧ d.internalDate ≤ endT →
          startT ≤ x.received_at ∧ x.received_at ≤ endT := by
        intro x hx hw
        rcases List.mem_append.1 hx with hx | hx
        · exact h x hx
        · simp only [List.mem_singleton] at hx
          subst hx
          exact hw
      by_cases hw : startT ≤ d.internalDate ∧ d.internalDate ≤ endT
      · by_cases hd : desired ≤ (acc ++ [mkEmail m d]).length
        · rw [scanPage_cons_ok_stop rest hg hw hd]
          intro x hx
          exact hacc' x hx hw
        · rw [scanPage_cons_ok_cont rest hg hw hd]
          exact ih _ (fun x hx => hacc' x hx hw)
      · rw [scanPage_cons_ok_out rest hg hw]; exact ih acc h

/-- The matched list returned by the fetch loop never exceeds `desired`
elements. -/
theorem fetchLoop_fst_length (svc : GmailService) (startT endT : Int)
    (desired maxF : Nat) :
    ∀ (token : Option String) (fetched : Nat) (acc : List Email),
      acc.length ≤ desired →
      (fetchLoop svc startT endT desired maxF token fetched acc).1.length ≤
        desired := by
  intro token fetched acc
  induction token, fetched, acc using fetchLoop.induct svc startT endT desired maxF with
  | case1 token fetched acc hguard e hl =>
    intro _; rw [fetchLoop_error hguard hl]; simp
  | case2 token fetched acc hguard page hl he =>
    intro h; rw [fetchLoop_empty hguard hl he]; exact h
  | case3 token fetched acc hguard page hl he hn =>
    intro _; rw [fetchLoop_page_none hguard hl he hn]
    exact scanPage_length svc startT endT desired page.messages acc hguard.2
  | case4 token fetched acc hguard page hl he acc2 t hn ih =>
    intro _; rw [fetchLoop_page_some hguard hl he hn]
    exact ih (scanPage_length svc startT endT desired page.messages acc hguard.2)
  | case5 token fetched acc hguard =>
    intro h; rw [fetchLoop_stop hguard]; exact h

/-- Every message returned by the fetch loop lies inside the inclusive
window. -/
theorem fetchLoop_fst_window (svc : GmailService) (startT endT : Int)
    (desired maxF : Nat) :
    ∀ (token : Option String) (fetched : Nat) (acc : List Email),
      (∀ x ∈ acc, startT ≤ x.received_at ∧ x.received_at ≤ endT) →
      ∀ x ∈ (fetchLoop svc startT endT desired maxF token fetched acc).1,
        startT ≤ x.received_at ∧ x.received_at ≤ endT := by
  intro token fetched acc
  induction token, fetched, acc using fetchLoop.induct svc startT endT desired maxF with
  | case1 token fetched acc hguard e hl =>
    intro _; rw [fetchLoop_error hguard hl]; simp
  | case2 token fetched acc hguard page hl he =>
    intro h; rw [fetchLoop_empty hguard hl he]; exact h
  | case3 token fetched acc hguard page hl he hn =>
    intro h; rw [fetchLoop_page_none hguard hl he hn]
    exact scanPage_window svc startT endT desired page.messages acc h
  | case4 token fetched acc hguard page hl he acc2 t hn ih =>
    intro h; rw [fetchLoop_page_some hguard hl he hn]
    exact ih (scanPage_window svc startT endT desired page.messages acc h)
  | case5 token fetched acc hguard =>
    intro h; rw [fetchLoop_stop hguard]; exact h

/-- The matched list is an order-preserving selection from the reference
scan sequence: the fetch never re-orders messages. -/
theorem fetchLoop_fst_sublist (svc : GmailService) (startT endT : Int)
    (desired maxF : Nat) :
    ∀ (token : Option String) (fetched : Nat) (acc : List Email),
      (fetchLoop svc startT endT desired maxF token fetched acc).1.Sublist
        (acc ++ scanLoop svc maxF token fetched) := by
  intro token fetched acc
  induction token, fetched, acc using fetchLoop.induct svc startT endT desired maxF with
  | case1 token fetched acc hguard e hl =>
    rw [fetchLoop_error hguard hl]; exact List.nil_sublist _
  | case2 token fetched acc hguard page hl he =>
    rw [fetchLoop_empty hguard hl he, scanLoop_empty hguard.1 hl he,
      List.append_nil]
  | case3 token fetched acc hguard page hl he hn =>
    rw [fetchLoop_page_none hguard hl he hn, scanLoop_page_none hguard.1 hl he hn]
    obtain ⟨t, ht, hs⟩ := scanPage_eq_append svc startT endT desired page.messages acc
    rw [ht]
    exact hs.append_left acc
  | case4 token fetched acc hguard page hl he acc2 t hn ih =>
    rw [fetchLoop_page_some hguard hl he hn, scanLoop_page_some hguard.1 hl he hn]
    refine ih.trans ?_
    obtain ⟨u, hu, hsu⟩ := scanPage_eq_append svc startT endT desired page.messages acc
    unfold_let acc2
    rw [hu, List.append_assoc]
    exact (hsu.append (List.Sublist.refl _)).append_left acc
  | case5 token fetched acc hguard =>
    rw [fetchLoop_stop hguard]; exact List.sublist_append_left _ _

/-- Upper bound on the `fetched_messages` counter: a page is requested only
while the counter is below `maxF`, so with pages of at most `P` identifiers
the counter ends at most `maxF - 1 + P`. -/
theorem fetchLoop_snd_le (svc : GmailService) (startT endT : Int)
    (desired maxF P : Nat)
    (hp : ∀ tok page, svc.listPage tok = .ok page → page.messages.length ≤ P) :
    ∀ (token : Option String) (fetched : Nat) (acc : List Email),
      fetched ≤ maxF - 1 + P →
      (fetchLoop svc startT endT desired maxF token fetched acc).2 ≤
        maxF - 1 + P := by
  intro token fetched acc
  induction token, fetched, acc using fetchLoop.induct svc startT endT desired maxF with
  | case1 token fetched acc hguard e hl =>
    intro h; rw [fetchLoop_error hguard hl]; exact h
  | case2 token fetched acc hguard page hl he =>
    intro _; rw [fetchLoop_empty hguard hl he]
    have hP := hp token page hl
    have := hguard.1
    omega
  | case3 token fetched acc hguard page hl he hn =>
    intro _; rw [fetchLoop_page_none hguard hl he hn]
    have hP := hp token page hl
    have := hguard.1
    omega
  | case4 token fetched acc hguard page hl he acc2 t hn ih =>
    intro _; rw [fetchLoop_page_some hguard hl he hn]
    refine ih ?_
    have hP := hp token page hl
    have := hguard.1
    omega
  | case5 token fetched acc hguard =>
    intro h; rw [fetchLoop_stop hguard]; exact h

/-! ## Properties of the stable descending sort -/

theorem insertDesc_perm (x : ScoredEmail) (l : List ScoredEmail) :
    (insertDesc x l).Perm (x :: l) := by
  induction l with
  | nil => simp [insertDesc]
  | cons y ys ih =>
    by_cases h : y.priority ≤ x.priority
    · simp [insertDesc, h]
    · simp only [insertDesc, if_neg h]
      exact (ih.cons y).trans (List.Perm.swap x y ys)

theorem insertDesc_pairwise (x : ScoredEmail) (l : List ScoredEmail)
    (hl : l.Pairwise (fun a b => b.priority ≤ a.priority)) :
    (insertDesc x l).Pairwise (fun a b => b.priority ≤ a.priority) := by
  induction l with
  | nil => simp [insertDesc]
  | cons y ys ih =>
    rcases List.pairwise_cons.1 hl with ⟨hy, hys⟩
    by_cases h : y.priority ≤ x.priority
    · simp only [insertDesc, if_pos h]
      refine List.pairwise_cons.2 ⟨?_, hl⟩
      intro b hb
      rcases List.mem_cons.1 hb with rfl | hb
      · exact h
      · exact Nat.le_trans (hy b hb) h
    · simp only [insertDesc, if_neg h]
      refine List.pairwise_cons.2 ⟨?_, ih hys⟩
      intro b hb
      have hmem := (insertDesc_perm x ys).mem_iff.1 hb
      rcases List.mem_cons.1 hmem with rfl | hb'
      · omega
      · exact hy b hb'

theorem insertDesc_filter (x : ScoredEmail) (p : Nat) (l : List ScoredEmail) :
    (insertDesc x l).filter (fun z => z.priority == p) =
      if x.priority = p then x :: l.filter (fun z => z.priority == p)
      else l.filter (fun z => z.priority == p) := by
  induction l with
  | nil => by_cases hx : x.priority = p <;> simp [insertDesc, hx]
  | cons y ys ih =>
    by_cases h : y.priority ≤ x.priority
    · simp only [insertDesc, if_pos h]
      by_cases hx : x.priority = p <;> simp [List.filter_cons, hx]
    · simp only [insertDesc, if_neg h]
      rw [List.filter_cons, List.filter_cons, ih]
      by_cases hx : x.priority = p
      · have hy : (y.priority == p) = false := by
          simp only [beq_eq_false_iff_ne, ne_eq]
          omega
        simp [hx, hy]
      · simp [hx]

theorem sortByPriorityDesc_perm (l : List ScoredEmail) :
    (sortByPriorityDesc l).Perm l := by
  induction l with
  | nil => simp [sortByPriorityDesc]
  | cons x xs ih =>
    exact (insertDesc_perm x (sortByPriorityDesc xs)).trans (ih.cons x)

theorem sortByPriorityDesc_pairwise (l : List ScoredEmail) :
    (sortByPriorityDesc l).Pairwise (fun a b => b.priority ≤ a.priority) := by
  induction l with
  | nil => simp [sortByPriorityDesc]
  | cons x xs ih => exact insertDesc_pairwise x (sortByPriorityDesc xs) ih

theorem sortByPriorityDesc_filter (l : List ScoredEmail) (p : Nat) :
    (sortByPriorityDesc l).filter (fun z => z.priority == p) =
      l.filter (fun z => z.priority == p) := by
  induction l with
  | nil => rfl
  | cons x xs ih =>
    show (insertDesc x (sortByPriorityDesc xs)).filter _ = _
    rw [insertDesc_filter, ih, List.filter_cons]
    by_cases hx : x.priority = p <;> simp [hx]

/-! ## The claims -/

/-- **C1** (counterexample): with `desiredCount = maxScan = 1` and a first
page holding two identifiers, the running count of identifiers obtained from
page-listing calls reaches 2 > 1 = maxScan — the fetch loop can inspect more
than `maxScan` identifiers, because the budget is checked before a page is
requested, not per identifier. -/
theorem claim1_counterexample :
    fetchScannedCount svcTwoIds 0 10 1 1 = 2 ∧
      ¬ fetchScannedCount svcTwoIds 0 10 1 1 ≤ 1 := by
  have h : fetchScannedCount svcTwoIds 0 10 1 1 = 2 := by
    simp [fetchScannedCount, fetchLoop, svcTwoIds, scanPage]
  exact ⟨h, by rw [h]; decide⟩

/-- **C1** (amended): a page is requested only while the identifier count is
below `maxScan`, so when every page the adapter returns holds at most `P`
identifiers (the source requests pages of at most 50), the count never
exceeds `maxScan - 1 + P` — it can overshoot `maxScan` by at most one page. -/
theorem claim1_scan_budget_bound (svc : GmailService) (startT endT : Int)
    (desired maxF P : Nat)
    (hp : ∀ tok page, svc.listPage tok = .ok page → page.messages.length ≤ P) :
    fetchScannedCount svc startT endT desired maxF ≤ maxF - 1 + P :=
  fetchLoop_snd_le svc startT endT desired maxF P hp none 0 [] (Nat.zero_le _)

theorem claim1_witness :
    (∀ tok page, svcTwoIds.listPage tok = .ok page → page.messages.length ≤ 2) ∧
      fetchScannedCount svcTwoIds 0 10 1 1 ≤ 1 - 1 + 2 := by
  have hp : ∀ tok page, svcTwoIds.listPage tok = .ok page →
      page.messages.length ≤ 2 := by
    intro tok page h
    simp only [svcTwoIds, Except.ok.injEq] at h
    subst h
    decide
  exact ⟨hp, claim1_scan_budget_bound svcTwoIds 0 10 1 1 2 hp⟩

/-- **C2** (counterexample): running `svcListFail` with scan budget 1 stops
after the first page and returns the matched message `emailM1`; running the
same adapter with budget 50 reaches the second page-listing call, which
raises, and the fetch returns `[]` — the already-matched message is lost,
refuting the claim that partial results are still returned. -/
theorem claim2_counterexample :
    fetch_recent_emails svcListFail 0 10 10 1 = [emailM1] ∧
      fetch_recent_emails svcListFail 0 10 10 50 = [] := by
  constructor <;>
    simp [fetch_recent_emails, fetchLoop, svcListFail, scanPage, emailM1,
      mkEmail, headerValue]

/-- **C2** (amended): if the mail adapter's page-listing call raises a hard
failure mid-run, the fetch terminates early and returns the **empty** list,
discarding whatever messages (`acc`) were already matched. -/
theorem claim2_listing_failure_returns_empty (svc : GmailService)
    (startT endT : Int) (desired maxF : Nat) (token : Option String)
    (fetched : Nat) (acc : List Email) (msg : String)
    (hl : svc.listPage token = .error msg)
    (hf : fetched < maxF) (ha : acc.length < desired) :
    fetchLoop svc startT endT desired maxF token fetched acc = ([], fetched) :=
  fetchLoop_error ⟨hf, ha⟩ hl

theorem claim2_witness :
    svcListFail.listPage (some "t") = .error "HttpError 503" ∧
      (1 : Nat) < 50 ∧ ([emailM1] : List Email).length < 10 ∧
      fetchLoop svcListFail 0 10 10 50 (some "t") 1 [emailM1] = ([], 1) :=
  ⟨rfl, by decide, by decide,
    claim2_listing_failure_returns_empty svcListFail 0 10 10 50 (some "t") 1
      [emailM1] "HttpError 503" rfl (by decide) (by decide)⟩

/-- **C3**: for `desiredCount ≤ maxScan`, the fetch returns at most
`desiredCount` messages, each timestamped inside the inclusive window
`[startT, endT]`, and in source page order: the result is an
order-preserving selection (sublist) of the scanned details, never
re-sorted. -/
theorem claim3_fetch_bounded_window_ordered (svc : GmailService)
    (startT endT : Int) (desired maxF : Nat) (hdm : desired ≤ maxF) :
    (fetch_recent_emails svc startT endT desired maxF).length ≤ desired ∧
      (∀ em ∈ fetch_recent_emails svc startT endT desired maxF,
        startT ≤ em.received_at ∧ em.received_at ≤ endT) ∧
      (fetch_recent_emails svc startT endT desired maxF).Sublist
        (scannedEmails svc maxF) := by
  refine ⟨?_, ?_, ?_⟩
  · exact fetchLoop_fst_length svc startT endT desired maxF none 0 [] (by simp)
  · exact fetchLoop_fst_window svc startT endT desired maxF none 0 [] (by simp)
  · have h := fetchLoop_fst_sublist svc startT endT desired maxF none 0 []
    simpa [scannedEmails] using h

theorem claim3_witness :
    (1 : Nat) ≤ 1 ∧
      ((fetch_recent_emails svcListFail 0 10 1 1).length ≤ 1 ∧
        (∀ em ∈ fetch_recent_emails svcListFail 0 10 1 1,
          (0 : Int) ≤ em.received_at ∧ em.received_at ≤ 10) ∧
        (fetch_recent_emails svcListFail 0 10 1 1).Sublist
          (scannedEmails svcListFail 1)) :=
  ⟨Nat.le_refl 1,
    claim3_fetch_bounded_window_ordered svcListFail 0 10 1 1 (Nat.le_refl 1)⟩

/-- **C4**: with a configured credential and a generation dependency that
raises on every call, `analyze_email_openai` makes exactly 3 attempts
(`max_retries = 3` in the source) and then returns the deterministic error
placeholder containing the last failure's reason; it returns normally to its
caller instead of raising. -/
theorem claim4_retry_exhaustion (apiKey : String) (create : ChatCreate)
    (errF : Nat → String) (text : String) (hk : ¬ apiKey = "")
    (hg : ∀ msgs n, create msgs n = .error (errF n)) :
    analyze_email_openai apiKey create text =
      (some ("Error analyzing email: " ++ errF 2), 3) := by
  have h3 : List.range 3 = [0, 1, 2] := rfl
  simp only [analyze_email_openai, if_neg hk, h3]
  simp [retryLoop, hg]

theorem claim4_witness :
    ¬ ("sk-test" : String) = "" ∧
      analyze_email_openai "sk-test" (fun _ _ => .error "RateLimitError") "hello" =
        (some ("Error analyzing email: " ++ "RateLimitError"), 3) :=
  ⟨by decide,
    claim4_retry_exhaustion "sk-test" (fun _ _ => .error "RateLimitError")
      (fun _ => "RateLimitError") "hello" (by decide) (fun _ _ => rfl)⟩

/-- **C5**: the score equals the spec's formula
`senderBonus + 2*urgencyScore + 3*subjectUrgency`, with the urgency counts
taken case-insensitively by substring over the keyword set, and in the
scenario sender "ops@pwc.com", subject "Report", analysis "please respond
ASAP" the score is 102. -/
theorem claim5_score_formula :
    (∀ (em : Email) (info : String),
      compute_priority em info = spec_score em.«from» em.subject info) ∧
      compute_priority
        { id := "1", subject := "Report", «from» := "ops@pwc.com"
          snippet := "", received_at := 0 } "please respond ASAP" = 102 := by
  constructor
  · intro em info
    have h1 : ∀ t, spec_keywordCount t = urgencyCount t := fun _ => rfl
    have h2 : ∀ s, spec_senderBonus s = senderBonus s := fun _ => rfl
    simp only [compute_priority, spec_score, h1, h2]
    omega
  · decide

/-- **C6**: the orchestrator's final ordering is a stable descending sort by
priority over the fetch-order processed sequence: it is a permutation of it,
priorities are pairwise descending (so a strictly greater priority appears
strictly earlier), and for every priority value the subsequence at that
priority is exactly the fetch-order subsequence (ties keep input order). -/
theorem claim6_sort_stable_desc (analysisOf : Email → String)
    (emails : List Email) :
    (orchestratorOrder analysisOf emails).Perm
        (processEmails analysisOf emails) ∧
      (orchestratorOrder analysisOf emails).Pairwise
        (fun a b => b.priority ≤ a.priority) ∧
      ∀ p, (orchestratorOrder analysisOf emails).filter
          (fun z => z.priority == p) =
        (processEmails analysisOf emails).filter (fun z => z.priority == p) :=
  ⟨sortByPriorityDesc_perm _, sortByPriorityDesc_pairwise _,
    fun p => sortByPriorityDesc_filter _ p⟩

/-- **C7**: with no API credential configured, `analyze_email_openai`
returns the fixed "credential missing" placeholder immediately and performs
zero calls to the generation dependency. -/
theorem claim7_missing_credential (create : ChatCreate) (text : String) :
    analyze_email_openai "" create text =
      (some "API key missing - unable to analyze email content.", 0) := rfl

/-- **C8**: a failing detail fetch for a single identifier is skipped and
the scan continues with the remaining identifiers: scanning `badId :: rest`
is exactly scanning `rest`, so one detail failure never aborts the overall
fetch and the other matched messages are still returned. -/
theorem claim8_detail_failure_skipped (svc : GmailService)
    (startT endT : Int) (desired : Nat) (acc : List Email)
    (badId : String) (rest : List String) (err : String)
    (hg : svc.getMessage badId = .error err) :
    scanPage svc startT endT desired acc (badId :: rest) =
      scanPage svc startT endT desired acc rest :=
  scanPage_cons_error startT endT desired acc rest hg

theorem claim8_witness :
    svcTwoIds.getMessage "bad" = .error "boom" ∧
      scanPage svcTwoIds 0 10 5 [] ["bad", "a"] =
        scanPage svcTwoIds 0 10 5 [] ["a"] :=
  ⟨rfl, claim8_detail_failure_skipped svcTwoIds 0 10 5 [] "bad" ["a"] "boom" rfl⟩

/-- **C9**: the scorer is a pure, deterministic function of
(sender, subject, analysis text): any two messages agreeing on sender and
subject, scored against equal analysis texts, get the same score — no other
field, no call order, and no ambient state enters the computation. -/
theorem claim9_score_pure (e₁ e₂ : Email) (info₁ info₂ : String)
    (hf : e₁.«from» = e₂.«from») (hs : e₁.subject = e₂.subject)
    (hi : info₁ = info₂) :
    compute_priority e₁ info₁ = compute_priority e₂ info₂ := by
  simp only [compute_priority, hf, hs, hi]

theorem claim9_witness :
    emailCopyA.«from» = emailCopyB.«from» ∧
      emailCopyA.subject = emailCopyB.subject ∧
      ("urgent" : String) = "urgent" ∧
      compute_priority emailCopyA "urgent" =
        compute_priority emailCopyB "urgent" :=
  ⟨rfl, rfl, rfl, claim9_score_pure emailCopyA emailCopyB "urgent" "urgent" rfl rfl rfl⟩

/-- **C10**: the sender bonus is exactly one of {0, 50, 100} — VIP and
priority-domain bonuses are never combined — and the VIP check takes
precedence: any sender whose lowercased form contains "pwc" gets bonus 100,
even when it also contains a priority domain. -/
theorem claim10_sender_bonus (s : String) :
    (senderBonus s = 0 ∨ senderBonus s = 50 ∨ senderBonus s = 100) ∧
      (pyIn "pwc" (pyLower s) = true → senderBonus s = 100) := by
  constructor
  · simp only [senderBonus]
    cases h1 : pyIn "pwc" (pyLower s) <;>
      cases h2 : (["@acme.com", "@important-client.com"] : List String).any
        (fun domain => pyIn domain (pyLower s)) <;>
      simp [h1, h2]
  · intro h
    simp [senderBonus, h]

theorem claim10_witness :
    pyIn "pwc" (pyLower "Ops Team <ops@acme.com> via PWC") = true ∧
      senderBonus "Ops Team <ops@acme.com> via PWC" = 100 := by
  have h : pyIn "pwc" (pyLower "Ops Team <ops@acme.com> via PWC") = true := by
    decide
  exact ⟨h, (claim10_sender_bonus "Ops Team <ops@acme.com> via PWC").2 h⟩

end EmailAnalyzer
